import Mathlib

/-!
# A shallow embedding of the `gap-buffer` crate (`src/lib.rs`)

The Rust type `GapBuffer<T, A>` owns a raw allocation of `buffer_capacity`
slots of `T`, split into a live left run `[0, gap_start)`, an uninitialized
gap `[gap_start, gap_start + gap_len)` and a live right run
`[gap_start + gap_len, buffer_capacity)`.

We model the raw memory as a `List (Option T)`: `some v` is an initialized
slot holding `v`, `none` is uninitialized memory (reading it in Rust would
be undefined behaviour, which the model surfaces as a `none` result).
`mem::size_of::<T>()` is a type-level constant in Rust; it is threaded as an
explicit `sz : Nat` argument to the operations that consult
`MIN_NON_ZERO_CAP`.  The `allocated` flag records whether
`allocator.allocate`/`allocator.grow` has ever been called (the source
derives deallocation from `buffer_capacity` via `buffer_layout`).

Rust panics (out-of-bounds `insert`/`delete`) are modelled with
`Except String`, carrying the exact panic message.
-/

structure GapBuffer (T : Type) where
  slots : List (Option T)
  buffer_capacity : Nat
  gap_start : Nat
  gap_len : Nat
  allocated : Bool
deriving Repr, DecidableEq

namespace GapBuffer

variable {T : Type}

/-- `GapBuffer::<T>::MIN_NON_ZERO_CAP`: 8 slots for 1-byte elements, 4 for
elements of at most 1024 bytes, 1 otherwise.  `sz` is `mem::size_of::<T>()`. -/
def MIN_NON_ZERO_CAP (sz : Nat) : Nat :=
  if sz = 1 then 8 else if sz ≤ 1024 then 4 else 1

/-- `GapBuffer::new()`: capacity 0, dangling buffer, no allocation. -/
def new : GapBuffer T :=
  { slots := [], buffer_capacity := 0, gap_start := 0, gap_len := 0, allocated := false }

/-- `len(&self) = self.buffer_capacity - self.gap_len` (usize subtraction;
the data-model invariant keeps it from underflowing). -/
def len (b : GapBuffer T) : Nat :=
  b.buffer_capacity - b.gap_len

/-- `capacity(&self) = self.buffer_capacity`. -/
def capacity (b : GapBuffer T) : Nat :=
  b.buffer_capacity

/-- `get(&self, i)`.  Outer `none` is Rust's `None` (absent); otherwise the
inner `Option T` is the content of the physical slot the code reads
(`none` = uninitialized or out-of-bounds memory, UB in Rust).
The offset is the source's `i + self.gap_start + self.gap_len` in the
right-run branch, verbatim. -/
def get (b : GapBuffer T) (i : Nat) : Option (Option T) :=
  if i ≥ b.len then
    none
  else
    let offset := if i < b.gap_start then i else i + b.gap_start + b.gap_len
    some (b.slots.getD offset none)

/-- `ptr::copy(src, dst, cnt)` (memmove) on the slot list: every position in
`[dst, dst + cnt)` receives the pre-copy content of `src + (k - dst)`;
every other position is untouched. -/
def ptrCopy (s : List (Option T)) (src dst cnt : Nat) : List (Option T) :=
  (List.range s.length).map fun k =>
    if dst ≤ k ∧ k < dst + cnt then s.getD (src + (k - dst)) none else s.getD k none

/-- `gap_move_to(&mut self, i)`: slide the gap so it starts at `i` by one
`ptr::copy` of the run between `i` and the gap. -/
def gap_move_to (b : GapBuffer T) (i : Nat) : GapBuffer T :=
  if i ≠ b.gap_start then
    let s :=
      if i < b.gap_start then
        ptrCopy b.slots i (i + b.gap_len) (b.gap_start - i)
      else
        ptrCopy b.slots (b.gap_start + b.gap_len) b.gap_start (i - b.gap_start)
    { b with slots := s, gap_start := i }
  else
    b

/-- `gap_ensure_size(&mut self, size)`: grow when `gap_len < size`.
`Allocator::grow` preserves the old contents at their old offsets and the
fresh tail of the block is uninitialized, hence
`slots ++ List.replicate (new_capacity - old_capacity) none`. -/
def gap_ensure_size (sz : Nat) (b : GapBuffer T) (size : Nat) : GapBuffer T :=
  if b.gap_len < size then
    let new_capacity := max (b.buffer_capacity * 2) size
    let new_capacity := max new_capacity (MIN_NON_ZERO_CAP sz)
    let new_gap_len := new_capacity - b.len
    { b with
        slots := b.slots ++ List.replicate (new_capacity - b.buffer_capacity) none,
        buffer_capacity := new_capacity,
        gap_len := new_gap_len,
        allocated := true }
  else
    b

/-- The panic message of `insert`/`delete`:
`"Index out of bound for {i:?} of buffer's size {len:?}"`. -/
def outOfBoundMsg (i l : Nat) : String :=
  "Index out of bound for " ++ toString i ++ " of buffer's size " ++ toString l

/-- `insert(&mut self, i, value)`.  Panics (`.error`) iff `i > len`. -/
def insert (sz : Nat) (b : GapBuffer T) (i : Nat) (value : T) :
    Except String (GapBuffer T) :=
  if i > b.len then
    .error (outOfBoundMsg i b.len)
  else
    let b := b.gap_move_to i
    let b := gap_ensure_size sz b 1
    let b := { b with slots := b.slots.set b.gap_start (some value) }
    .ok { b with gap_start := b.gap_start + 1, gap_len := b.gap_len - 1 }

/-- `delete(&mut self, i) -> T`.  Panics (`.error`) iff `i ≥ len`; otherwise
returns the content of the slot `gap_start + gap_len - 1` read after the
gap has been moved to `i` and extended by one. -/
def delete (b : GapBuffer T) (i : Nat) :
    Except String (Option T × GapBuffer T) :=
  if i ≥ b.len then
    .error (outOfBoundMsg i b.len)
  else
    let b := b.gap_move_to i
    let b := { b with gap_len := b.gap_len + 1 }
    .ok (b.slots.getD (b.gap_start + b.gap_len - 1) none, b)

/-- `push(&mut self, value) = insert(len, value)` (which never panics). -/
def push (sz : Nat) (b : GapBuffer T) (value : T) : GapBuffer T :=
  match insert sz b b.len value with
  | .ok b' => b'
  | .error _ => b

/-- `buffer_extend_from_vec`: ensure the gap fits the vector, then push each
element in order. -/
def buffer_extend_from_vec (sz : Nat) (b : GapBuffer T) (vec : List T) :
    GapBuffer T :=
  (gap_ensure_size sz b vec.length |> vec.foldl (push sz))

/-- `impl From<Box<[T]>> for GapBuffer<T>`: extend a fresh buffer. -/
def fromBoxedSlice (sz : Nat) (value : List T) : GapBuffer T :=
  buffer_extend_from_vec sz new value

/-- The loop of `impl From<GapBuffer<T>> for Box<[T]>`: `fuel` iterations of
`vec.push(value.delete(0))`.  (The `.error` branch is unreachable: `delete 0`
succeeds while the buffer is non-empty.) -/
def drainFront : Nat → GapBuffer T → List (Option T)
  | 0, _ => []
  | fuel + 1, b =>
    match delete b 0 with
    | .ok (v, b') => v :: drainFront fuel b'
    | .error _ => []

/-- `impl From<GapBuffer<T>> for Box<[T]>`: `len` repetitions of `delete(0)`,
collected in order. -/
def toBoxedSlice (b : GapBuffer T) : List (Option T) :=
  drainFront b.len b

/-- Rendering of one slot read by the `Debug` impl (`fmt` is `T`'s `Debug`;
reading a gap slot is UB, shown as `"?"`). -/
def fmtSlot (fmt : T → String) (o : Option T) : String :=
  match o with
  | some v => fmt v
  | none => "?"

/-- `impl fmt::Debug for GapBuffer<T>`: `'['`, the left run with `", "`
before every element except the first, `", [...]"` whenever `gap_len > 0`,
`", "` before every right-run element, `']'`. -/
def fmtDebug (fmt : T → String) (b : GapBuffer T) : String :=
  "[" ++
    String.join ((List.range b.gap_start).map fun i =>
      (if i ≠ 0 then ", " else "") ++ fmtSlot fmt (b.slots.getD i none)) ++
    (if b.gap_len > 0 then ", [...]" else "") ++
    String.join ((List.range' (b.gap_start + b.gap_len)
        (b.buffer_capacity - (b.gap_start + b.gap_len))).map fun i =>
      ", " ++ fmtSlot fmt (b.slots.getD i none)) ++
    "]"

/-- The logical element sequence: left run followed by right run. -/
def logicalList (b : GapBuffer T) : List (Option T) :=
  b.slots.take b.gap_start ++ b.slots.drop (b.gap_start + b.gap_len)

/-- The sequence of `get(i)` results for `i ∈ [0, len)`. -/
def getSeq (b : GapBuffer T) : List (Option (Option T)) :=
  (List.range b.len).map b.get

/-- The data-model invariant (§3 of the spec): gap bounds inside the
capacity, the slot list is exactly `buffer_capacity` long, and a
zero-capacity buffer has never allocated. -/
def Inv (b : GapBuffer T) : Prop :=
  b.gap_start ≤ b.buffer_capacity ∧
  b.gap_start + b.gap_len ≤ b.buffer_capacity ∧
  b.slots.length = b.buffer_capacity ∧
  (b.buffer_capacity = 0 → b.allocated = false)

instance (b : GapBuffer T) [DecidableEq T] : Decidable (Inv b) := by
  unfold Inv; infer_instance

end GapBuffer

/-- One public mutating operation, for whole-run statements. -/
inductive GapOp (T : Type) where
  | push (v : T)
  | insert (i : Nat) (v : T)
  | delete (i : Nat)
deriving Repr

/-- Run a list of operations on the buffer (operations violating their
precondition leave the state unchanged; the runs we examine satisfy all
preconditions). -/
def GapBuffer.runOps (sz : Nat) (ops : List (GapOp T)) (b : GapBuffer T) :
    GapBuffer T :=
  ops.foldl
    (fun b op =>
      match op with
      | .push v => b.push sz v
      | .insert i v =>
        match GapBuffer.insert sz b i v with
        | .ok b' => b'
        | .error _ => b
      | .delete i =>
        match GapBuffer.delete b i with
        | .ok (_, b') => b'
        | .error _ => b)
    b

/-- The reference ordered-sequence model: a plain list with append,
insert-at and remove-at. -/
def GapOp.applyModel (op : GapOp T) (l : List T) : List T :=
  match op with
  | .push v => l ++ [v]
  | .insert i v => l.insertIdx i v
  | .delete i => l.eraseIdx i

/-- Run a list of operations on the reference model. -/
def GapOp.runModel (ops : List (GapOp T)) (l : List T) : List T :=
  ops.foldl (fun l op => op.applyModel l) l

namespace GapBuffer

variable {T : Type}

lemma ptrCopy_length (s : List (Option T)) (src dst cnt : Nat) :
    (ptrCopy s src dst cnt).length = s.length := by
  simp [ptrCopy]

lemma ptrCopy_getD (s : List (Option T)) (src dst cnt k : Nat) (hk : k < s.length) :
    (ptrCopy s src dst cnt).getD k none =
      if dst ≤ k ∧ k < dst + cnt then s.getD (src + (k - dst)) none
      else s.getD k none := by
  rw [List.getD_eq_getElem _ _ (by simpa [ptrCopy_length] using hk)]
  simp [ptrCopy]

lemma ptrCopy_eq (s : List (Option T)) (src dst cnt : Nat)
    (h1 : src + cnt ≤ s.length) (h2 : dst + cnt ≤ s.length) :
    ptrCopy s src dst cnt =
      s.take dst ++ (s.drop src).take cnt ++ s.drop (dst + cnt) := by
  apply List.ext_getElem
  · simp only [ptrCopy_length, List.length_append, List.length_take,
      List.length_drop]
    omega
  · intro k hk1 hk2
    rw [ptrCopy_length] at hk1
    have hmap := ptrCopy_getD s src dst cnt k hk1
    rw [List.getD_eq_getElem _ _ (by rwa [ptrCopy_length])] at hmap
    rw [hmap]
    rcases Nat.lt_or_ge k dst with hlo | hge
    · rw [if_neg (by omega)]
      rw [List.getElem_append_left (by
        simp only [List.length_append, List.length_take, List.length_drop]
        omega)]
      rw [List.getElem_append_left (by simp only [List.length_take]; omega)]
      rw [List.getElem_take, List.getD_eq_getElem _ _ (by omega)]
    · rcases Nat.lt_or_ge k (dst + cnt) with hmid | hhi
      · rw [if_pos ⟨hge, hmid⟩]
        rw [List.getElem_append_left (by
          simp only [List.length_append, List.length_take, List.length_drop]
          omega)]
        rw [List.getElem_append_right (by simp only [List.length_take]; omega)]
        rw [List.getElem_take, List.getElem_drop,
          List.getD_eq_getElem _ _ (by omega)]
        congr 1
        simp only [List.length_take]
        omega
      · rw [if_neg (by omega)]
        rw [List.getElem_append_right (by
          simp only [List.length_append, List.length_take, List.length_drop]
          omega)]
        rw [List.getElem_drop, List.getD_eq_getElem _ _ (by omega)]
        congr 1
        simp only [List.length_append, List.length_take, List.length_drop]
        omega

end GapBuffer

namespace GapBuffer

variable {T : Type}

lemma drop_append_ge {α : Type} (A B : List α) (n : Nat) (h : A.length ≤ n) :
    (A ++ B).drop n = B.drop (n - A.length) := by
  rw [List.drop_append_eq_append_drop, List.drop_eq_nil_of_le h, List.nil_append]

lemma gap_move_to_buffer_capacity (b : GapBuffer T) (i : Nat) :
    (b.gap_move_to i).buffer_capacity = b.buffer_capacity := by
  unfold gap_move_to
  split <;> rfl

lemma gap_move_to_gap_len (b : GapBuffer T) (i : Nat) :
    (b.gap_move_to i).gap_len = b.gap_len := by
  unfold gap_move_to
  split <;> rfl

lemma gap_move_to_allocated (b : GapBuffer T) (i : Nat) :
    (b.gap_move_to i).allocated = b.allocated := by
  unfold gap_move_to
  split <;> rfl

lemma gap_move_to_gap_start (b : GapBuffer T) (i : Nat) :
    (b.gap_move_to i).gap_start = i := by
  unfold gap_move_to
  split
  · rfl
  · next h =>
    simp only [ne_eq, not_not] at h
    simp [h]

lemma gap_move_to_slots_length (b : GapBuffer T) (i : Nat) :
    (b.gap_move_to i).slots.length = b.slots.length := by
  unfold gap_move_to
  split
  · dsimp only
    split <;> simp [ptrCopy_length]
  · rfl

lemma gap_move_to_slots_left (b : GapBuffer T) (i : Nat)
    (hgap : b.gap_start + b.gap_len ≤ b.slots.length) (hi : i < b.gap_start) :
    (b.gap_move_to i).slots =
      b.slots.take (i + b.gap_len) ++
        (b.slots.drop i).take (b.gap_start - i) ++
        b.slots.drop (b.gap_start + b.gap_len) := by
  unfold gap_move_to
  rw [if_pos (by omega)]
  dsimp only
  rw [if_pos hi]
  rw [ptrCopy_eq _ _ _ _ (by omega) (by omega)]
  rw [show i + b.gap_len + (b.gap_start - i) = b.gap_start + b.gap_len by omega]

lemma gap_move_to_slots_right (b : GapBuffer T) (i : Nat)
    (hi : b.gap_start < i) (hilen : i + b.gap_len ≤ b.slots.length) :
    (b.gap_move_to i).slots =
      b.slots.take b.gap_start ++
        (b.slots.drop (b.gap_start + b.gap_len)).take (i - b.gap_start) ++
        b.slots.drop i := by
  unfold gap_move_to
  rw [if_pos (by omega)]
  dsimp only
  rw [if_neg (by omega)]
  rw [ptrCopy_eq _ _ _ _ (by omega) (by omega)]
  rw [show b.gap_start + (i - b.gap_start) = i by omega]

lemma logicalList_gap_move_to (b : GapBuffer T) (i : Nat)
    (hlen : b.slots.length = b.buffer_capacity)
    (hgap : b.gap_start + b.gap_len ≤ b.buffer_capacity)
    (hi : i ≤ b.len) :
    logicalList (b.gap_move_to i) = logicalList b := by
  have hlb : b.len = b.buffer_capacity - b.gap_len := rfl
  rcases Nat.lt_trichotomy i b.gap_start with hlt | heq | hgt
  · unfold logicalList
    rw [gap_move_to_gap_start, gap_move_to_gap_len,
      gap_move_to_slots_left b i (by omega) hlt]
    have hA : (b.slots.take (i + b.gap_len)).length = i + b.gap_len := by
      simp only [List.length_take]
      omega
    rw [List.append_assoc]
    rw [List.take_append_of_le_length (by omega)]
    rw [List.take_take, show i ⊓ (i + b.gap_len) = i by omega]
    rw [drop_append_ge _ _ _ (by omega), hA, Nat.sub_self, List.drop_zero]
    rw [← List.append_assoc, ← List.take_add,
      show i + (b.gap_start - i) = b.gap_start by omega]
  · rw [heq]
    unfold gap_move_to
    rw [if_neg (by omega)]
  · unfold logicalList
    rw [gap_move_to_gap_start, gap_move_to_gap_len,
      gap_move_to_slots_right b i hgt (by omega)]
    have hAlen : (b.slots.take b.gap_start).length = b.gap_start := by
      simp only [List.length_take]
      omega
    have hBlen : ((b.slots.drop (b.gap_start + b.gap_len)).take
        (i - b.gap_start)).length = i - b.gap_start := by
      simp only [List.length_take, List.length_drop]
      omega
    rw [List.append_assoc]
    rw [List.take_append_eq_append_take, List.take_of_length_le (by omega), hAlen]
    rw [List.take_append_of_le_length (by omega)]
    rw [List.take_take, show (i - b.gap_start) ⊓ (i - b.gap_start) = i - b.gap_start by omega]
    rw [drop_append_ge _ _ _ (by omega), hAlen]
    rw [drop_append_ge _ _ _ (by omega), hBlen]
    rw [show i + b.gap_len - b.gap_start - (i - b.gap_start) = b.gap_len by omega]
    rw [List.drop_drop]
    rw [List.append_assoc]
    congr 1
    conv_rhs => rw [← List.take_append_drop (i - b.gap_start)
      (b.slots.drop (b.gap_start + b.gap_len))]
    congr 1
    rw [List.drop_drop]
    congr 1
    omega

end GapBuffer

namespace GapBuffer

variable {T : Type}

lemma MIN_NON_ZERO_CAP_pos (sz : Nat) : 0 < MIN_NON_ZERO_CAP sz := by
  unfold MIN_NON_ZERO_CAP
  split_ifs <;> omega

lemma len_gap_move_to (b : GapBuffer T) (i : Nat) :
    (b.gap_move_to i).len = b.len := by
  unfold len
  rw [gap_move_to_buffer_capacity, gap_move_to_gap_len]

lemma gap_ensure_size_buffer_capacity (sz : Nat) (b : GapBuffer T) (size : Nat) :
    (gap_ensure_size sz b size).buffer_capacity =
      if b.gap_len < size then
        max (max (b.buffer_capacity * 2) size) (MIN_NON_ZERO_CAP sz)
      else b.buffer_capacity := by
  unfold gap_ensure_size
  split <;> rfl

lemma gap_ensure_size_capacity_le (sz : Nat) (b : GapBuffer T) (size : Nat) :
    b.buffer_capacity ≤ (gap_ensure_size sz b size).buffer_capacity := by
  rw [gap_ensure_size_buffer_capacity]
  split
  · omega
  · exact Nat.le_refl _

lemma len_gap_ensure_size (sz : Nat) (b : GapBuffer T) (size : Nat) :
    (gap_ensure_size sz b size).len = b.len := by
  unfold gap_ensure_size
  split
  · unfold len
    dsimp only
    omega
  · rfl

lemma gap_ensure_size_gap_start (sz : Nat) (b : GapBuffer T) (size : Nat) :
    (gap_ensure_size sz b size).gap_start = b.gap_start := by
  unfold gap_ensure_size
  split <;> rfl

lemma gap_ensure_size_slots_length (sz : Nat) (b : GapBuffer T) (size : Nat)
    (hlen : b.slots.length = b.buffer_capacity) :
    (gap_ensure_size sz b size).slots.length =
      (gap_ensure_size sz b size).buffer_capacity := by
  unfold gap_ensure_size
  split
  · simp only [List.length_append, List.length_replicate, hlen]
    omega
  · exact hlen

lemma gap_ensure_size_one_gap_pos (sz : Nat) (b : GapBuffer T) :
    1 ≤ (gap_ensure_size sz b 1).gap_len := by
  unfold gap_ensure_size
  split
  · next h =>
    dsimp only
    unfold len
    have := MIN_NON_ZERO_CAP_pos sz
    rcases Nat.eq_zero_or_pos b.buffer_capacity with h0 | h0 <;> omega
  · next h => omega

lemma Inv_new : Inv (new : GapBuffer T) := by
  refine ⟨Nat.le_refl _, Nat.le_refl _, rfl, fun _ => rfl⟩

lemma Inv_gap_move_to (b : GapBuffer T) (i : Nat) (hb : Inv b) (hi : i ≤ b.len) :
    Inv (b.gap_move_to i) := by
  obtain ⟨h1, h2, h3, h4⟩ := hb
  have hlb : b.len = b.buffer_capacity - b.gap_len := rfl
  refine ⟨?_, ?_, ?_, ?_⟩
  · rw [gap_move_to_gap_start, gap_move_to_buffer_capacity]; omega
  · rw [gap_move_to_gap_start, gap_move_to_gap_len, gap_move_to_buffer_capacity]
    omega
  · rw [gap_move_to_slots_length, gap_move_to_buffer_capacity]; exact h3
  · rw [gap_move_to_buffer_capacity, gap_move_to_allocated]; exact h4

lemma Inv_gap_ensure_size (sz : Nat) (b : GapBuffer T) (size : Nat)
    (hb : Inv b) : Inv (gap_ensure_size sz b size) := by
  obtain ⟨h1, h2, h3, h4⟩ := hb
  unfold gap_ensure_size
  split
  · next h =>
    have := MIN_NON_ZERO_CAP_pos sz
    have hlb : b.len = b.buffer_capacity - b.gap_len := rfl
    refine ⟨?_, ?_, ?_, ?_⟩
    · dsimp only; omega
    · dsimp only
      unfold len
      omega
    · simp only [List.length_append, List.length_replicate, h3]
      omega
    · dsimp only
      intro hc
      omega
  · exact ⟨h1, h2, h3, h4⟩

lemma insert_ok_of_le (sz : Nat) (b : GapBuffer T) (i : Nat) (v : T)
    (hi : i ≤ b.len) :
    insert sz b i v =
      .ok (let b1 := gap_ensure_size sz (b.gap_move_to i) 1
           let b2 := { b1 with slots := b1.slots.set b1.gap_start (some v) }
           { b2 with gap_start := b2.gap_start + 1, gap_len := b2.gap_len - 1 }) := by
  unfold insert
  rw [if_neg (by omega)]

lemma Inv_insert (sz : Nat) (b : GapBuffer T) (i : Nat) (v : T) (b' : GapBuffer T)
    (hb : Inv b) (h : insert sz b i v = .ok b') : Inv b' := by
  unfold insert at h
  split at h
  · exact absurd h (by simp)
  · next hle =>
    have hi : i ≤ b.len := by omega
    injection h with h
    subst h
    set b1 := gap_ensure_size sz (b.gap_move_to i) 1 with hb1
    have hInv1 : Inv b1 := Inv_gap_ensure_size _ _ _ (Inv_gap_move_to b i hb hi)
    obtain ⟨g1, g2, g3, g4⟩ := hInv1
    have hgl1 : 1 ≤ b1.gap_len := gap_ensure_size_one_gap_pos sz (b.gap_move_to i)
    refine ⟨?_, ?_, ?_, ?_⟩
    · dsimp only; omega
    · dsimp only; omega
    · simpa using g3
    · dsimp only
      intro hc
      exact g4 hc

lemma delete_ok_of_lt (b : GapBuffer T) (i : Nat) (hi : i < b.len) :
    delete b i =
      .ok (let b1 := b.gap_move_to i
           let b2 := { b1 with gap_len := b1.gap_len + 1 }
           (b2.slots.getD (b2.gap_start + b2.gap_len - 1) none, b2)) := by
  unfold delete
  rw [if_neg (by omega)]

lemma Inv_delete (b : GapBuffer T) (i : Nat) (r : Option T) (b' : GapBuffer T)
    (hb : Inv b) (h : delete b i = .ok (r, b')) : Inv b' := by
  unfold delete at h
  split at h
  · exact absurd h (by simp)
  · next hlt =>
    have hi : i < b.len := by omega
    injection h with h
    have hb2 := congrArg Prod.snd h
    dsimp only at hb2
    subst hb2
    have hInv1 : Inv (b.gap_move_to i) := Inv_gap_move_to b i hb (by omega)
    obtain ⟨g1, g2, g3, g4⟩ := hInv1
    have hgs : (b.gap_move_to i).gap_start = i := gap_move_to_gap_start b i
    have hlm : (b.gap_move_to i).len = b.len := len_gap_move_to b i
    have hlb : (b.gap_move_to i).len =
        (b.gap_move_to i).buffer_capacity - (b.gap_move_to i).gap_len := rfl
    refine ⟨?_, ?_, ?_, ?_⟩
    · dsimp only; omega
    · dsimp only; omega
    · simpa using g3
    · dsimp only
      intro hc
      exact g4 hc

end GapBuffer

namespace GapBuffer

variable {T : Type}

lemma Inv_push (sz : Nat) (b : GapBuffer T) (v : T) (hb : Inv b) :
    Inv (push sz b v) := by
  unfold push
  split
  · next b' heq => exact Inv_insert sz b b.len v b' hb heq
  · exact hb

lemma Inv_foldl_push (sz : Nat) (l : List T) (b : GapBuffer T) (hb : Inv b) :
    Inv (l.foldl (push sz) b) := by
  induction l generalizing b with
  | nil => exact hb
  | cons x xs ih => exact ih (push sz b x) (Inv_push sz b x hb)

lemma Inv_buffer_extend_from_vec (sz : Nat) (b : GapBuffer T) (vec : List T)
    (hb : Inv b) : Inv (buffer_extend_from_vec sz b vec) := by
  unfold buffer_extend_from_vec
  exact Inv_foldl_push sz vec _ (Inv_gap_ensure_size sz b vec.length hb)

lemma Inv_fromBoxedSlice (sz : Nat) (l : List T) : Inv (fromBoxedSlice sz l) :=
  Inv_buffer_extend_from_vec sz new l Inv_new

lemma push_packed (sz : Nat) (p : List T) (C : Nat) (a : Bool) (v : T)
    (hlt : p.length < C) :
    push sz ⟨p.map some ++ List.replicate (C - p.length) none, C,
        p.length, C - p.length, a⟩ v =
      ⟨(p ++ [v]).map some ++ List.replicate (C - (p.length + 1)) none, C,
        p.length + 1, C - (p.length + 1), a⟩ := by
  set b : GapBuffer T :=
    ⟨p.map some ++ List.replicate (C - p.length) none, C,
      p.length, C - p.length, a⟩ with hbdef
  have hlen : b.len = p.length := by
    unfold len
    rw [hbdef]
    dsimp only
    omega
  have hmv : b.gap_move_to b.len = b := by
    unfold gap_move_to
    rw [if_neg (by rw [hlen, hbdef]; simp)]
  have hges : gap_ensure_size sz b 1 = b := by
    unfold gap_ensure_size
    rw [if_neg (by rw [hbdef]; dsimp only; omega)]
  have hset : b.slots.set b.gap_start (some v) =
      (p ++ [v]).map some ++ List.replicate (C - (p.length + 1)) none := by
    rw [hbdef]
    dsimp only
    rw [List.set_append_right _ _ (by simp)]
    simp only [List.length_map, Nat.sub_self]
    rw [show C - p.length = (C - (p.length + 1)) + 1 by omega,
      List.replicate_succ, List.set_cons_zero]
    simp [List.map_append]
  unfold push
  rw [insert_ok_of_le sz b b.len v (Nat.le_refl _)]
  dsimp only
  rw [hmv, hges, hset]
  rw [hbdef]
  dsimp only
  congr 1

lemma foldl_push_packed (sz : Nat) (l : List T) :
    ∀ (p : List T) (C : Nat) (a : Bool), p.length + l.length ≤ C →
    l.foldl (push sz)
        ⟨p.map some ++ List.replicate (C - p.length) none, C,
          p.length, C - p.length, a⟩ =
      ⟨(p ++ l).map some ++ List.replicate (C - (p.length + l.length)) none, C,
        p.length + l.length, C - (p.length + l.length), a⟩ := by
  induction l with
  | nil =>
    intro p C a h
    simp
  | cons x xs ih =>
    intro p C a h
    simp only [List.length_cons] at h ⊢
    rw [List.foldl_cons]
    rw [push_packed sz p C a x (by omega)]
    have hx : (p ++ [x]).length = p.length + 1 := by simp
    have hrec := ih (p ++ [x]) C a (by rw [hx]; omega)
    rw [hx] at hrec
    rw [hrec]
    have hassoc : p ++ [x] ++ xs = p ++ x :: xs := by simp
    rw [hassoc]
    have harith : p.length + 1 + xs.length = p.length + (xs.length + 1) := by omega
    rw [harith]

end GapBuffer

namespace GapBuffer

variable {T : Type}

lemma getD_drop (s : List (Option T)) (g k : Nat) :
    (s.drop g).getD k none = s.getD (g + k) none := by
  rw [List.getD_eq_getElem?_getD, List.getD_eq_getElem?_getD, List.getElem?_drop]

lemma gap_ensure_size_new (sz n : Nat) (hn : 1 ≤ n) :
    gap_ensure_size sz (new : GapBuffer T) n =
      ⟨List.replicate (max n (MIN_NON_ZERO_CAP sz)) none,
        max n (MIN_NON_ZERO_CAP sz), 0, max n (MIN_NON_ZERO_CAP sz), true⟩ := by
  unfold gap_ensure_size new len
  rw [if_pos (by dsimp only; omega)]
  dsimp only
  congr 1 <;> simp

lemma fromBoxedSlice_eq (sz : Nat) (l : List T) (hne : 1 ≤ l.length) :
    fromBoxedSlice sz l =
      ⟨l.map some ++
          List.replicate (max l.length (MIN_NON_ZERO_CAP sz) - l.length) none,
        max l.length (MIN_NON_ZERO_CAP sz), l.length,
        max l.length (MIN_NON_ZERO_CAP sz) - l.length, true⟩ := by
  unfold fromBoxedSlice buffer_extend_from_vec
  rw [gap_ensure_size_new sz l.length hne]
  have hpk : (⟨List.replicate (max l.length (MIN_NON_ZERO_CAP sz)) none,
      max l.length (MIN_NON_ZERO_CAP sz), 0,
      max l.length (MIN_NON_ZERO_CAP sz), true⟩ : GapBuffer T) =
      ⟨([] : List T).map some ++
          List.replicate
            (max l.length (MIN_NON_ZERO_CAP sz) - ([] : List T).length) none,
        max l.length (MIN_NON_ZERO_CAP sz), ([] : List T).length,
        max l.length (MIN_NON_ZERO_CAP sz) - ([] : List T).length, true⟩ := by
    simp
  rw [hpk, foldl_push_packed sz l [] _ true (by simp)]
  simp

lemma delete_zero_no_move (slots : List (Option T)) (C g : Nat) (a : Bool)
    (hg : g < C) :
    delete (⟨slots, C, 0, g, a⟩ : GapBuffer T) 0 =
      .ok (slots.getD g none, ⟨slots, C, 0, g + 1, a⟩) := by
  unfold delete
  rw [if_neg (by unfold len; dsimp only; omega)]
  have hmv : (⟨slots, C, 0, g, a⟩ : GapBuffer T).gap_move_to 0 =
      ⟨slots, C, 0, g, a⟩ := by
    unfold gap_move_to
    rw [if_neg (by dsimp only; omega)]
  rw [hmv]
  dsimp only
  rw [show 0 + (g + 1) - 1 = g from by omega]

lemma drain_packed (r : List T) :
    ∀ (g : Nat) (slots : List (Option T)) (a : Bool) (C : Nat),
      slots.length = C → g + r.length = C → slots.drop g = r.map some →
      drainFront r.length (⟨slots, C, 0, g, a⟩ : GapBuffer T) = r.map some := by
  induction r with
  | nil =>
    intro g slots a C _ _ _
    simp [drainFront]
  | cons x xs ih =>
    intro g slots a C hlen hg hdrop
    simp only [List.length_cons] at hg ⊢
    show drainFront (xs.length + 1) (⟨slots, C, 0, g, a⟩ : GapBuffer T) = _
    unfold drainFront
    rw [delete_zero_no_move slots C g a (by omega)]
    dsimp only
    have hv : slots.getD g none = some x := by
      have h0 : (slots.drop g).getD 0 none = some x := by rw [hdrop]; rfl
      rw [getD_drop] at h0
      simpa using h0
    rw [hv]
    have hdrop1 : slots.drop (g + 1) = xs.map some := by
      have : (slots.drop g).drop 1 = slots.drop (g + 1) := by
        rw [List.drop_drop]
      rw [← this, hdrop]
      simp
    rw [ih (g + 1) slots a C hlen (by omega) hdrop1]
    simp

lemma delete_zero_gap_at_end (s : List (Option T)) (C n g : Nat) (a : Bool)
    (hlen : s.length = C) (hng : n + g = C) (hn : 1 ≤ n) :
    delete (⟨s, C, n, g, a⟩ : GapBuffer T) 0 =
      .ok ((s.take n).getD 0 none,
        ⟨s.take g ++ s.take n, C, 0, g + 1, a⟩) := by
  have hlen0 : (⟨s, C, n, g, a⟩ : GapBuffer T).len = n := by
    unfold len
    dsimp only
    omega
  have hmv := gap_move_to_slots_left (⟨s, C, n, g, a⟩ : GapBuffer T) 0
    (by dsimp only; omega) (by dsimp only; omega)
  dsimp only at hmv
  simp only [Nat.zero_add, List.drop_zero, Nat.sub_zero] at hmv
  rw [List.drop_eq_nil_of_le (by omega), List.append_nil] at hmv
  have hgs := gap_move_to_gap_start (⟨s, C, n, g, a⟩ : GapBuffer T) 0
  have hgl := gap_move_to_gap_len (⟨s, C, n, g, a⟩ : GapBuffer T) 0
  have hcap := gap_move_to_buffer_capacity (⟨s, C, n, g, a⟩ : GapBuffer T) 0
  have halloc := gap_move_to_allocated (⟨s, C, n, g, a⟩ : GapBuffer T) 0
  dsimp only at hgl hcap halloc
  have hval : (s.take g ++ s.take n).getD (0 + (g + 1) - 1) none =
      (s.take n).getD 0 none := by
    rw [show 0 + (g + 1) - 1 = g from by omega]
    have htg : (s.take g).length = g := by
      simp only [List.length_take]
      omega
    rw [List.getD_eq_getElem?_getD, List.getD_eq_getElem?_getD,
      List.getElem?_append_right (by omega), htg, Nat.sub_self]
  rw [delete_ok_of_lt _ 0 (by rw [hlen0]; omega)]
  dsimp only
  rw [hmv, hgs, hgl, hcap, halloc, hval]

lemma toBoxedSlice_packed (x : T) (xs : List T) (C : Nat) (a : Bool)
    (hC : xs.length + 1 ≤ C) :
    toBoxedSlice (⟨(x :: xs).map some ++
        List.replicate (C - (xs.length + 1)) none, C,
        xs.length + 1, C - (xs.length + 1), a⟩ : GapBuffer T) =
      (x :: xs).map some := by
  have hslen : ((x :: xs).map some ++
      List.replicate (C - (xs.length + 1)) none).length = C := by
    simp only [List.length_append, List.length_map, List.length_cons,
      List.length_replicate]
    omega
  have htn : ((x :: xs).map some ++
      List.replicate (C - (xs.length + 1)) none).take (xs.length + 1) =
      (x :: xs).map some := by
    rw [List.take_append_of_le_length (by simp),
      List.take_of_length_le (by simp)]
  have hlen0 : (⟨(x :: xs).map some ++
      List.replicate (C - (xs.length + 1)) none, C,
      xs.length + 1, C - (xs.length + 1), a⟩ : GapBuffer T).len =
      xs.length + 1 := by
    unfold len
    dsimp only
    omega
  unfold toBoxedSlice
  rw [hlen0]
  unfold drainFront
  rw [delete_zero_gap_at_end _ C (xs.length + 1) (C - (xs.length + 1)) a
    hslen (by omega) (by omega)]
  dsimp only
  rw [htn]
  have htglen : (((x :: xs).map some ++
      List.replicate (C - (xs.length + 1)) none).take
        (C - (xs.length + 1))).length = C - (xs.length + 1) := by
    simp only [List.length_take]
    omega
  have hs2len : (((x :: xs).map some ++
      List.replicate (C - (xs.length + 1)) none).take (C - (xs.length + 1)) ++
      (x :: xs).map some).length = C := by
    simp only [List.length_append, htglen, List.length_map, List.length_cons]
    omega
  have hdrop2 : (((x :: xs).map some ++
      List.replicate (C - (xs.length + 1)) none).take (C - (xs.length + 1)) ++
      (x :: xs).map some).drop (C - (xs.length + 1) + 1) = xs.map some := by
    rw [drop_append_ge _ _ _ (by omega), htglen]
    rw [show C - (xs.length + 1) + 1 - (C - (xs.length + 1)) = 1 from by omega]
    simp
  rw [drain_packed xs (C - (xs.length + 1) + 1) _ a C hs2len (by omega) hdrop2]
  simp

end GapBuffer

namespace GapBuffer

variable {T : Type}

lemma gap_move_to_slots_getD (b : GapBuffer T) (i k : Nat)
    (hk : k < b.slots.length) :
    (b.gap_move_to i).slots.getD k none =
      if i < b.gap_start then
        (if i + b.gap_len ≤ k ∧ k < b.gap_start + b.gap_len then
          b.slots.getD (k - b.gap_len) none
        else b.slots.getD k none)
      else if b.gap_start < i then
        (if b.gap_start ≤ k ∧ k < i then b.slots.getD (k + b.gap_len) none
        else b.slots.getD k none)
      else b.slots.getD k none := by
  rcases Nat.lt_trichotomy i b.gap_start with hlt | heq | hgt
  · rw [if_pos hlt]
    unfold gap_move_to
    rw [if_pos (by omega)]
    dsimp only
    rw [if_pos hlt]
    rw [ptrCopy_getD _ _ _ _ _ hk]
    split_ifs with h1 h2 h3 <;> first | rfl | omega | (congr 1; omega)
  · rw [if_neg (by omega), if_neg (by omega)]
    unfold gap_move_to
    rw [if_neg (by omega)]
  · rw [if_neg (by omega), if_pos hgt]
    unfold gap_move_to
    rw [if_pos (by omega)]
    dsimp only
    rw [if_neg (by omega)]
    rw [ptrCopy_getD _ _ _ _ _ hk]
    split_ifs with h1 h2 h3 <;> first | rfl | omega | (congr 1; omega)

lemma logicalList_length (b : GapBuffer T) (hlen : b.slots.length = b.buffer_capacity)
    (hgap : b.gap_start + b.gap_len ≤ b.buffer_capacity) :
    (logicalList b).length = b.len := by
  unfold logicalList len
  simp only [List.length_append, List.length_take, List.length_drop, hlen]
  omega

lemma delete_spec (b : GapBuffer T) (i : Nat)
    (hlen : b.slots.length = b.buffer_capacity)
    (hgap : b.gap_start + b.gap_len ≤ b.buffer_capacity)
    (hi : i < b.len) :
    delete b i =
      .ok ((logicalList b).getD i none,
        { b.gap_move_to i with gap_len := (b.gap_move_to i).gap_len + 1 }) := by
  rw [delete_ok_of_lt b i hi]
  dsimp only
  congr 2
  rw [gap_move_to_gap_start, gap_move_to_gap_len]
  rw [show i + (b.gap_len + 1) - 1 = i + b.gap_len from by omega]
  have hll : logicalList (b.gap_move_to i) = logicalList b :=
    logicalList_gap_move_to b i hlen hgap (by omega)
  rw [← hll]
  unfold logicalList
  rw [gap_move_to_gap_start, gap_move_to_gap_len]
  have htl : ((b.gap_move_to i).slots.take i).length = i := by
    simp only [List.length_take, gap_move_to_slots_length, hlen]
    have : b.len ≤ b.buffer_capacity := by unfold len; omega
    omega
  rw [List.getD_eq_getElem?_getD, List.getD_eq_getElem?_getD,
    List.getElem?_append_right (by omega), htl,
    Nat.sub_self, List.getElem?_drop, Nat.add_zero]

end GapBuffer

namespace GapBuffer

variable {T : Type}

/-- Join with `", "` strictly between consecutive items: the rendering the
spec describes ("a separator only between consecutive rendered items"). -/
def sepJoin : List String → String
  | [] => ""
  | [x] => x
  | x :: y :: l => x ++ ", " ++ sepJoin (y :: l)

/-- The items the debug view renders, in order: left run, a gap marker when
`gap_len > 0`, right run. -/
def debugItems (fmt : T → String) (b : GapBuffer T) : List String :=
  ((List.range b.gap_start).map fun i => fmtSlot fmt (b.slots.getD i none)) ++
  (if b.gap_len > 0 then ["[...]"] else []) ++
  ((List.range' (b.gap_start + b.gap_len)
      (b.buffer_capacity - (b.gap_start + b.gap_len))).map fun i =>
    fmtSlot fmt (b.slots.getD i none))

/-- The format claimed by the spec: bracket-delimited, separator strictly
between consecutive rendered items. -/
def debugSpecFormat (fmt : T → String) (b : GapBuffer T) : String :=
  "[" ++ sepJoin (debugItems fmt b) ++ "]"

lemma foldl_append_str (l : List String) :
    ∀ a b : String, l.foldl (· ++ ·) (a ++ b) = a ++ l.foldl (· ++ ·) b := by
  induction l with
  | nil => intro a b; rfl
  | cons x xs ih =>
    intro a b
    show xs.foldl (· ++ ·) (a ++ b ++ x) = _
    rw [String.append_assoc, ih]
    rfl

lemma join_cons (s : String) (l : List String) :
    String.join (s :: l) = s ++ String.join l := by
  show l.foldl (· ++ ·) ("" ++ s) = _
  rw [String.empty_append, ← String.append_empty s, foldl_append_str,
    String.append_empty]
  rfl

lemma join_append (A B : List String) :
    String.join (A ++ B) = String.join A ++ String.join B := by
  induction A with
  | nil =>
    rw [List.nil_append, show String.join [] = "" from rfl,
      String.empty_append]
  | cons x xs ih =>
    rw [List.cons_append, join_cons, join_cons, ih, String.append_assoc]

lemma join_comma_eq (l : List String) (hl : l ≠ []) :
    String.join (l.map fun x => ", " ++ x) = ", " ++ sepJoin l := by
  induction l with
  | nil => exact absurd rfl hl
  | cons x xs ih =>
    rw [List.map_cons, join_cons]
    cases xs with
    | nil =>
      show ", " ++ x ++ String.join [] = ", " ++ sepJoin [x]
      rw [show String.join [] = "" from rfl, String.append_empty]
      rfl
    | cons y ys =>
      rw [ih (by simp)]
      rw [show sepJoin (x :: y :: ys) = x ++ ", " ++ sepJoin (y :: ys) from rfl]
      simp [String.append_assoc]

lemma sepJoin_append (A B : List String) (hA : A ≠ []) :
    sepJoin (A ++ B) = sepJoin A ++ String.join (B.map fun x => ", " ++ x) := by
  induction A with
  | nil => exact absurd rfl hA
  | cons x xs ih =>
    cases xs with
    | nil =>
      cases B with
      | nil => rw [List.append_nil]; show sepJoin [x] = sepJoin [x] ++ ""; rw [String.append_empty]
      | cons y ys =>
        show sepJoin (x :: y :: ys) = sepJoin [x] ++ _
        rw [show sepJoin (x :: y :: ys) = x ++ ", " ++ sepJoin (y :: ys) from rfl]
        rw [join_comma_eq (y :: ys) (by simp)]
        rw [show sepJoin [x] = x from rfl, String.append_assoc]
    | cons z zs =>
      show sepJoin (x :: (z :: (zs ++ B))) = _
      rw [show sepJoin (x :: z :: (zs ++ B)) =
        x ++ ", " ++ sepJoin (z :: (zs ++ B)) from rfl]
      rw [show (z :: (zs ++ B)) = (z :: zs) ++ B from rfl, ih (by simp)]
      rw [show sepJoin (x :: z :: zs) = x ++ ", " ++ sepJoin (z :: zs) from rfl]
      rw [← String.append_assoc]

lemma left_loop_eq (g : Nat → String) (n : Nat) (hn : 1 ≤ n) :
    String.join ((List.range n).map fun i =>
      (if i ≠ 0 then ", " else "") ++ g i) =
      sepJoin ((List.range n).map g) := by
  induction n with
  | zero => omega
  | succ m ih =>
    rcases Nat.eq_zero_or_pos m with h0 | hpos
    · subst h0
      show String.join [(if (0 : Nat) ≠ 0 then ", " else "") ++ g 0] = _
      rw [if_neg (by omega), String.empty_append]
      rw [join_cons, show String.join [] = "" from rfl, String.append_empty]
      rfl
    · rw [List.range_succ, List.map_append, List.map_append, join_append,
        ih hpos]
      rw [sepJoin_append _ _ (by simp; omega)]
      congr 1
      simp only [List.map_cons, List.map_nil]
      rw [if_pos (by omega)]

end GapBuffer

namespace GapBuffer

variable {T : Type}

lemma fmtDebug_eq_amended (fmt : T → String) (b : GapBuffer T) :
    fmtDebug fmt b =
      "[" ++
        (if b.gap_start = 0 ∧ (0 < b.gap_len ∨
            0 < b.buffer_capacity - (b.gap_start + b.gap_len))
          then ", " else "") ++
        sepJoin (debugItems fmt b) ++ "]" := by
  unfold fmtDebug debugItems
  set Ai : List String := (List.range b.gap_start).map
    (fun i => fmtSlot fmt (b.slots.getD i none)) with hAi
  set Bi : List String := (if b.gap_len > 0 then (["[...]"] : List String)
    else []) with hBi
  set Ci : List String := (List.range' (b.gap_start + b.gap_len)
      (b.buffer_capacity - (b.gap_start + b.gap_len))).map
    (fun i => fmtSlot fmt (b.slots.getD i none)) with hCi
  have hCw : String.join ((List.range' (b.gap_start + b.gap_len)
      (b.buffer_capacity - (b.gap_start + b.gap_len))).map
        fun i => ", " ++ fmtSlot fmt (b.slots.getD i none)) =
      String.join (Ci.map fun x => ", " ++ x) := by
    rw [hCi, List.map_map]
    rfl
  have hBw : (if b.gap_len > 0 then (", [...]" : String) else "") =
      String.join (Bi.map fun x => ", " ++ x) := by
    rw [hBi]
    by_cases h : b.gap_len > 0
    · rw [if_pos h, if_pos h, List.map_cons, List.map_nil, join_cons,
        show String.join [] = "" from rfl, String.append_empty]
      decide
    · rw [if_neg h, if_neg h]
      rfl
  by_cases hgs : b.gap_start = 0
  · have hA0 : Ai = [] := by rw [hAi, hgs]; simp
    rw [show ((List.range b.gap_start).map fun i =>
        (if i ≠ 0 then ", " else "") ++ fmtSlot fmt (b.slots.getD i none)) =
        ([] : List String) from by rw [hgs]; simp]
    rw [show String.join ([] : List String) = "" from rfl]
    rw [hA0, List.nil_append]
    by_cases hgl : b.gap_len > 0
    · rw [if_pos hgl]
      have hB1 : Bi = ["[...]"] := by rw [hBi, if_pos hgl]
      rw [if_pos ⟨hgs, Or.inl hgl⟩, hCw, hB1]
      have hmid : (", [...]" : String) ++
          String.join (Ci.map fun x => ", " ++ x) =
          ", " ++ sepJoin ("[...]" :: Ci) := by
        rw [← join_comma_eq ("[...]" :: Ci) (by simp), List.map_cons,
          join_cons]
        congr 1
      rw [show (["[...]"] ++ Ci : List String) = "[...]" :: Ci from rfl]
      have h2 := congrArg (fun s : String => "[" ++ s ++ "]") hmid
      simpa [String.append_assoc, String.empty_append] using h2
    · rw [if_neg hgl]
      have hB0 : Bi = [] := by rw [hBi, if_neg hgl]
      by_cases hCe : Ci = []
      · have hcnt : b.buffer_capacity - (b.gap_start + b.gap_len) = 0 := by
          have hl := congrArg List.length hCe
          rw [hCi] at hl
          simpa using hl
        rw [if_neg (show ¬(b.gap_start = 0 ∧ (0 < b.gap_len ∨
            0 < b.buffer_capacity - (b.gap_start + b.gap_len)))
          from by rintro ⟨-, h | h⟩ <;> omega)]
        rw [hCw, hCe, hB0]
        rw [show (([] : List String).map fun x => ", " ++ x) =
          ([] : List String) from rfl]
        rw [show String.join ([] : List String) = "" from rfl]
        rw [show (([] : List String) ++ []) = ([] : List String) from rfl]
        rw [show sepJoin [] = "" from rfl]
        simp [String.append_empty]
      · have hcnt : 0 < b.buffer_capacity - (b.gap_start + b.gap_len) := by
          by_contra hc
          push_neg at hc
          apply hCe
          rw [hCi, show b.buffer_capacity - (b.gap_start + b.gap_len) = 0
            from by omega]
          simp
        rw [if_pos ⟨hgs, Or.inr hcnt⟩, hCw, hB0, List.nil_append]
        have h2 := congrArg (fun s : String => "[" ++ s ++ "]")
          (join_comma_eq Ci hCe)
        simpa [String.append_assoc, String.empty_append] using h2
  · have hAne : Ai ≠ [] := by
      rw [hAi]
      intro h
      have hl := congrArg List.length h
      simp at hl
      exact hgs hl
    rw [left_loop_eq (fun i => fmtSlot fmt (b.slots.getD i none))
      b.gap_start (by omega)]
    rw [← hAi, hBw, hCw]
    rw [if_neg (show ¬(b.gap_start = 0 ∧ (0 < b.gap_len ∨
        0 < b.buffer_capacity - (b.gap_start + b.gap_len)))
      from by rintro ⟨h, -⟩; exact hgs h)]
    have hmid3 : sepJoin Ai ++
        (String.join (Bi.map fun x => ", " ++ x) ++
          String.join (Ci.map fun x => ", " ++ x)) =
        sepJoin (Ai ++ Bi ++ Ci) := by
      rw [← join_append, ← List.map_append,
        ← sepJoin_append Ai (Bi ++ Ci) hAne, ← List.append_assoc]
    have h2 := congrArg (fun s : String => "[" ++ s ++ "]") hmid3
    simpa [String.append_assoc, String.empty_append] using h2

end GapBuffer

/-- The operation run `push 1, push 2, push 3, insert(0, 5)` on a 1-byte
element buffer. -/
def exOps : List (GapOp Nat) := [.push 1, .push 2, .push 3, .insert 0 5]

/-- The buffer state those operations produce: slots
`[5, 2, 3, _, _, 1, 2, 3]`, capacity 8, `gap_start` 1, `gap_len` 4. -/
def bEx : GapBuffer Nat :=
  ⟨[some 5, some 2, some 3, none, none, some 1, some 2, some 3], 8, 1, 4, true⟩

/-- A full buffer whose gap sits at position 0 (all eight elements in the
right run), as reached inside `insert(0, 9)` on a full 8-element buffer just
before `gap_ensure_size(1)` runs. -/
def bPreGrow : GapBuffer Nat :=
  ⟨(List.range 8).map (fun k => some (k + 1)), 8, 0, 0, true⟩

/-- The state after `push 1, delete 0`: empty logical content but capacity 8
with the gap covering everything. -/
def b9 : GapBuffer Nat :=
  ⟨[some 1, none, none, none, none, none, none, some 1], 8, 0, 8, true⟩

/-- C1: the spec claims the `get(i)` sequence always equals the reference
ordered-sequence model.  The code FAILS this: after
`push 1, push 2, push 3, insert(0, 5)` the model reads `[5, 1, 2, 3]` but
`get` returns `5, 2, 3` and then an out-of-bounds read, because `get`
computes the right-run offset as `i + gap_start + gap_len` instead of
`i + gap_len`. -/
theorem C1_get_sequence_diverges_from_model :
    GapOp.runModel exOps ([] : List Nat) = [5, 1, 2, 3] ∧
    GapBuffer.runOps 1 exOps GapBuffer.new = bEx ∧
    GapBuffer.getSeq bEx =
      [some (some 5), some (some 2), some (some 3), some none] ∧
    GapBuffer.getSeq bEx ≠
      (GapOp.runModel exOps ([] : List Nat)).map (fun v => some (some v)) := by
  decide

/-- C2: the spec claims `get(i)` maps a right-run index to physical slot
`i + gap_len`.  The code FAILS this: it reads slot
`i + gap_start + gap_len`.  On the reachable state `bEx` (gap_start 1,
gap_len 4), `get(1)` reads slot 6 (value 2) instead of slot 5 (value 1);
`get(3)` even reads past the 8-slot buffer.  The absent side does hold:
`get` returns `none` for every `i ≥ len`, including on an empty buffer. -/
theorem C2_get_reads_wrong_slot :
    GapBuffer.Inv bEx ∧ bEx.gap_start ≤ 1 ∧ 1 < bEx.len ∧
    bEx.get 1 =
      some (bEx.slots.getD (1 + bEx.gap_start + bEx.gap_len) none) ∧
    bEx.slots.getD (1 + bEx.gap_len) none = some 1 ∧
    bEx.get 1 = some (some 2) ∧
    bEx.get 1 ≠ some (bEx.slots.getD (1 + bEx.gap_len) none) ∧
    bEx.get 3 = some none ∧
    bEx.get 4 = none ∧
    (GapBuffer.new : GapBuffer Nat).get 0 = none := by
  decide

/-- C3: the spec claims `gap_ensure_size` moves the right run to the end of
the grown buffer so that every `get(i)` for `i < len` is preserved.  The
code FAILS this: `Allocator::grow` copies the old block and the code never
relocates the right run, so the right-run elements are left inside the new
gap region and the logical content after growth is uninitialized memory.
On `bPreGrow` (8 live elements, all in the right run, gap_len 0) ensuring a
gap of 1 yields capacity 16 and gap `[0, 8)`, turning the logical sequence
from `1..8` into eight uninitialized slots. -/
theorem C3_growth_loses_right_run :
    GapBuffer.Inv bPreGrow ∧ bPreGrow.gap_start < bPreGrow.len ∧
    bPreGrow.gap_len < 1 ∧
    (GapBuffer.gap_ensure_size 1 bPreGrow 1).buffer_capacity = 16 ∧
    (GapBuffer.gap_ensure_size 1 bPreGrow 1).gap_len = 8 ∧
    GapBuffer.logicalList bPreGrow = (List.range 8).map (fun k => some (k + 1)) ∧
    GapBuffer.logicalList (GapBuffer.gap_ensure_size 1 bPreGrow 1) =
      List.replicate 8 none ∧
    GapBuffer.logicalList (GapBuffer.gap_ensure_size 1 bPreGrow 1) ≠
      GapBuffer.logicalList bPreGrow := by
  decide

/-- C4: `gap_ensure_size(s)` is a no-op when `gap_len ≥ s`; otherwise the new
capacity is `max(2·c, s, MIN_NON_ZERO_CAP)` and the new gap length is the
new capacity minus the logical length; the capacity never decreases. -/
theorem C4_gap_ensure_size_growth_policy (T : Type) (sz : Nat)
    (b : GapBuffer T) (s : Nat) :
    (s ≤ b.gap_len → GapBuffer.gap_ensure_size sz b s = b) ∧
    (b.gap_len < s →
      (GapBuffer.gap_ensure_size sz b s).buffer_capacity =
        max (max (2 * b.buffer_capacity) s) (GapBuffer.MIN_NON_ZERO_CAP sz) ∧
      (GapBuffer.gap_ensure_size sz b s).gap_len =
        (GapBuffer.gap_ensure_size sz b s).buffer_capacity - b.len) ∧
    b.buffer_capacity ≤ (GapBuffer.gap_ensure_size sz b s).buffer_capacity := by
  refine ⟨?_, ?_, GapBuffer.gap_ensure_size_capacity_le sz b s⟩
  · intro h
    unfold GapBuffer.gap_ensure_size
    rw [if_neg (by omega)]
  · intro h
    constructor
    · rw [GapBuffer.gap_ensure_size_buffer_capacity, if_pos h,
        Nat.mul_comm b.buffer_capacity 2]
    · unfold GapBuffer.gap_ensure_size
      rw [if_pos h]

/-- Witness for C4 at concrete inputs: `gap_ensure_size 0` on an empty
buffer is a no-op, and ensuring 32 on an empty 1-byte-element buffer gives
capacity `max (max 0 32) 8 = 32`. -/
theorem C4_gap_ensure_size_growth_policy_witness :
    GapBuffer.gap_ensure_size 1 (GapBuffer.new : GapBuffer Nat) 0 =
      GapBuffer.new ∧
    (GapBuffer.gap_ensure_size 1 (GapBuffer.new : GapBuffer Nat) 32).buffer_capacity =
      max (max (2 * (GapBuffer.new : GapBuffer Nat).buffer_capacity) 32)
        (GapBuffer.MIN_NON_ZERO_CAP 1) :=
  ⟨(C4_gap_ensure_size_growth_policy Nat 1 GapBuffer.new 0).1 (by decide),
   ((C4_gap_ensure_size_growth_policy Nat 1 GapBuffer.new 32).2.1 (by decide)).1⟩

/-- C5: `gap_move_to(i)` (for `0 ≤ i ≤ len` on an invariant-respecting
state) is a no-op when `i = gap_start`; when `i < gap_start` exactly the
slots `[i, gap_start)` are copied forward by `gap_len`; when `i > gap_start`
exactly the slots `[gap_start+gap_len, i+gap_len)` are copied backward by
`gap_len`; afterwards `gap_start = i`, `gap_len` is unchanged and the
logical element sequence is unchanged. -/
theorem C5_gap_move_to_spec (T : Type) (b : GapBuffer T) (i : Nat)
    (hb : GapBuffer.Inv b) (hi : i ≤ b.len) :
    (b.gap_move_to i).gap_start = i ∧
    (b.gap_move_to i).gap_len = b.gap_len ∧
    (b.gap_move_to i).buffer_capacity = b.buffer_capacity ∧
    (∀ k, k < b.buffer_capacity →
      (b.gap_move_to i).slots.getD k none =
        if i < b.gap_start then
          (if i + b.gap_len ≤ k ∧ k < b.gap_start + b.gap_len then
            b.slots.getD (k - b.gap_len) none
          else b.slots.getD k none)
        else if b.gap_start < i then
          (if b.gap_start ≤ k ∧ k < i then
            b.slots.getD (k + b.gap_len) none
          else b.slots.getD k none)
        else b.slots.getD k none) ∧
    GapBuffer.logicalList (b.gap_move_to i) = GapBuffer.logicalList b := by
  obtain ⟨h1, h2, h3, h4⟩ := hb
  exact ⟨GapBuffer.gap_move_to_gap_start b i, GapBuffer.gap_move_to_gap_len b i,
    GapBuffer.gap_move_to_buffer_capacity b i,
    fun k hk => GapBuffer.gap_move_to_slots_getD b i k (by omega),
    GapBuffer.logicalList_gap_move_to b i h3 h2 hi⟩

/-- Witness for C5 at a concrete input: moving the gap of `bEx` to 0
relocates the left-run element and keeps the logical sequence. -/
theorem C5_gap_move_to_spec_witness :
    (bEx.gap_move_to 0).gap_start = 0 ∧
    (bEx.gap_move_to 0).gap_len = bEx.gap_len ∧
    GapBuffer.logicalList (bEx.gap_move_to 0) = GapBuffer.logicalList bEx :=
  ⟨(C5_gap_move_to_spec Nat bEx 0 (by decide) (by decide)).1,
   (C5_gap_move_to_spec Nat bEx 0 (by decide) (by decide)).2.1,
   (C5_gap_move_to_spec Nat bEx 0 (by decide) (by decide)).2.2.2.2⟩

/-- C6: construction, push, insert (within precondition), delete (within
precondition) and the from-array conversion all preserve the data-model
invariants `gap_start ≤ capacity`, `gap_start + gap_len ≤ capacity`, the
slot count equals the capacity, and a zero-capacity buffer has never
allocated; the logical length is `capacity - gap_len` by definition. -/
theorem C6_public_ops_preserve_invariants (T : Type) (sz : Nat)
    (b b' : GapBuffer T) (i : Nat) (v : T) (r : Option T) (l : List T) :
    GapBuffer.Inv (GapBuffer.new : GapBuffer T) ∧
    (GapBuffer.Inv b → GapBuffer.Inv (GapBuffer.push sz b v)) ∧
    (GapBuffer.Inv b → GapBuffer.insert sz b i v = .ok b' → GapBuffer.Inv b') ∧
    (GapBuffer.Inv b → GapBuffer.delete b i = .ok (r, b') → GapBuffer.Inv b') ∧
    GapBuffer.Inv (GapBuffer.fromBoxedSlice sz l) ∧
    b.len = b.buffer_capacity - b.gap_len :=
  ⟨GapBuffer.Inv_new,
   fun hb => GapBuffer.Inv_push sz b v hb,
   fun hb h => GapBuffer.Inv_insert sz b i v b' hb h,
   fun hb h => GapBuffer.Inv_delete b i r b' hb h,
   GapBuffer.Inv_fromBoxedSlice sz l,
   rfl⟩

/-- Witness for C6 at concrete inputs: pushing onto `bEx` and building a
buffer from `[1, 2]` both satisfy the invariants. -/
theorem C6_public_ops_preserve_invariants_witness :
    GapBuffer.Inv (GapBuffer.push 1 bEx 7) ∧
    GapBuffer.Inv (GapBuffer.fromBoxedSlice 1 [1, 2]) :=
  ⟨(C6_public_ops_preserve_invariants Nat 1 bEx bEx 0 7 none [1, 2]).2.1
      (by decide),
   (C6_public_ops_preserve_invariants Nat 1 bEx bEx 0 7 none [1, 2]).2.2.2.2.1⟩

/-- C7: `insert(i, v)` fails iff `i > len` and `delete(i)` fails iff
`i ≥ len` (hence always on an empty buffer), in both cases with the panic
message carrying the offending index and the current length; the index is
never clamped (success is exactly the complement) and failure happens
before any mutation. -/
theorem C7_out_of_bounds_contract (T : Type) (sz : Nat) (b : GapBuffer T)
    (i : Nat) (v : T) :
    (GapBuffer.insert sz b i v =
        .error (GapBuffer.outOfBoundMsg i b.len) ↔ b.len < i) ∧
    ((GapBuffer.insert sz b i v).isOk = true ↔ i ≤ b.len) ∧
    (GapBuffer.delete b i =
        .error (GapBuffer.outOfBoundMsg i b.len) ↔ b.len ≤ i) ∧
    ((GapBuffer.delete b i).isOk = true ↔ i < b.len) ∧
    (b.len = 0 → GapBuffer.delete b i =
        .error (GapBuffer.outOfBoundMsg i b.len)) := by
  unfold GapBuffer.insert GapBuffer.delete
  refine ⟨?_, ?_, ?_, ?_, ?_⟩
  · split
    · next h => exact ⟨fun _ => h, fun _ => rfl⟩
    · next h =>
      exact ⟨fun hc => Except.noConfusion hc, fun hc => absurd hc (by omega)⟩
  · split
    · next h =>
      exact ⟨fun hc => absurd hc Bool.false_ne_true,
        fun hc => absurd hc (by omega)⟩
    · next h => exact ⟨fun _ => by omega, fun _ => rfl⟩
  · split
    · next h => exact ⟨fun _ => h, fun _ => rfl⟩
    · next h =>
      exact ⟨fun hc => Except.noConfusion hc, fun hc => absurd hc (by omega)⟩
  · split
    · next h =>
      exact ⟨fun hc => absurd hc Bool.false_ne_true,
        fun hc => absurd hc (by omega)⟩
    · next h => exact ⟨fun _ => by omega, fun _ => rfl⟩
  · intro h0
    split
    · next h => rfl
    · next h => omega

/-- Witness for C7 at concrete inputs: `delete 0` fails on the empty buffer
and `insert 1` past the end fails, each with the message carrying the index
and length; `insert` at the length succeeds. -/
theorem C7_out_of_bounds_contract_witness :
    GapBuffer.delete (GapBuffer.new : GapBuffer Nat) 0 =
      .error (GapBuffer.outOfBoundMsg 0 (GapBuffer.new : GapBuffer Nat).len) ∧
    GapBuffer.insert 1 (GapBuffer.new : GapBuffer Nat) 1 5 =
      .error (GapBuffer.outOfBoundMsg 1 (GapBuffer.new : GapBuffer Nat).len) ∧
    (GapBuffer.insert 1 (GapBuffer.new : GapBuffer Nat) 0 5).isOk = true :=
  ⟨(C7_out_of_bounds_contract Nat 1 GapBuffer.new 0 5).2.2.2.2 (by decide),
   (C7_out_of_bounds_contract Nat 1 GapBuffer.new 1 5).1.mpr (by decide),
   (C7_out_of_bounds_contract Nat 1 GapBuffer.new 0 5).2.1.mpr (by decide)⟩

/-- C8: converting an owned packed array into a `GapBuffer`
(`From<Box<[T]>>`) and back (`From<GapBuffer<T>> for Box<[T]>`) returns the
same elements in the same order, for every element type, element size and
array. -/
theorem C8_box_round_trip (T : Type) (sz : Nat) (l : List T) :
    GapBuffer.toBoxedSlice (GapBuffer.fromBoxedSlice sz l) = l.map some := by
  rcases l with _ | ⟨x, xs⟩
  · rfl
  · rw [GapBuffer.fromBoxedSlice_eq sz (x :: xs) (by simp)]
    simp only [List.length_cons]
    exact GapBuffer.toBoxedSlice_packed x xs _ true (le_max_left _ _)

/-- C9 (amended): the debug string is bracket-delimited and renders the
left run, a `[...]` marker iff `gap_len > 0`, then the right run, with a
`", "` separator between consecutive items — EXCEPT that when the left run
is empty and at least one item is rendered, a spurious leading separator
appears right after `[`.  Producing the string is a pure function of the
state. -/
theorem C9_debug_format_amended (T : Type) (fmt : T → String)
    (b : GapBuffer T) :
    GapBuffer.fmtDebug fmt b =
      "[" ++
        (if b.gap_start = 0 ∧ (0 < b.gap_len ∨
            0 < b.buffer_capacity - (b.gap_start + b.gap_len))
          then ", " else "") ++
        GapBuffer.sepJoin (GapBuffer.debugItems fmt b) ++ "]" :=
  GapBuffer.fmtDebug_eq_amended fmt b

/-- C9 counterexample: on the reachable state after `push 1, delete 0`
(empty left run, positive gap) the code renders `"[, [...]]"` — a leading
separator — while the claimed format (separator only between consecutive
items) would be `"[[...]]"`. -/
theorem C9_debug_format_counterexample :
    GapBuffer.runOps 1 [GapOp.push 1, GapOp.delete 0] GapBuffer.new = b9 ∧
    GapBuffer.fmtDebug toString b9 = "[, [...]]" ∧
    GapBuffer.debugSpecFormat toString b9 = "[[...]]" ∧
    GapBuffer.fmtDebug toString b9 ≠ GapBuffer.debugSpecFormat toString b9 := by
  decide

/-- C10 (amended): `delete(i)` with `i < len` is the take variant: it
returns the value previously at logical index `i` (the `i`-th entry of the
logical sequence — which, due to the offset slip in `get`, can differ from
what `get(i)` returned), decreases the logical length by one and leaves the
capacity unchanged. -/
theorem C10_delete_take_variant (T : Type) (b : GapBuffer T) (i : Nat)
    (hb : GapBuffer.Inv b) (hi : i < b.len) :
    (GapBuffer.delete b i).toOption.map Prod.fst =
      some ((GapBuffer.logicalList b).getD i none) ∧
    (GapBuffer.delete b i).toOption.map (fun p => p.snd.len + 1) =
      some b.len ∧
    (GapBuffer.delete b i).toOption.map (fun p => p.snd.buffer_capacity) =
      some b.buffer_capacity := by
  obtain ⟨h1, h2, h3, h4⟩ := hb
  rw [GapBuffer.delete_spec b i h3 h2 hi]
  have hlb : b.len = b.buffer_capacity - b.gap_len := rfl
  refine ⟨rfl, ?_, ?_⟩
  · simp only [Except.toOption, Option.map_some']
    congr 1
    unfold GapBuffer.len
    dsimp only
    rw [GapBuffer.gap_move_to_buffer_capacity, GapBuffer.gap_move_to_gap_len]
    omega
  · simp only [Except.toOption, Option.map_some']
    congr 1
    exact GapBuffer.gap_move_to_buffer_capacity b i

/-- Witness for C10 at a concrete input: deleting index 1 of `bEx` returns
the logical element `1`, shortens the buffer and keeps capacity 8. -/
theorem C10_delete_take_variant_witness :
    (GapBuffer.delete bEx 1).toOption.map Prod.fst =
      some ((GapBuffer.logicalList bEx).getD 1 none) ∧
    (GapBuffer.delete bEx 1).toOption.map (fun p => p.snd.len + 1) =
      some bEx.len ∧
    (GapBuffer.delete bEx 1).toOption.map (fun p => p.snd.buffer_capacity) =
      some bEx.buffer_capacity :=
  C10_delete_take_variant Nat bEx 1 (by decide) (by decide)

/-- C10 counterexample: the claim identifies the returned value with "the
value get(i) would have returned before the call"; on `bEx`, `delete(1)`
returns `1` (the true logical element) while `get(1)` returns `2` (the
`get` offset slip), so the claim as stated is false. -/
theorem C10_delete_take_variant_counterexample :
    (GapBuffer.delete bEx 1).toOption.map Prod.fst = some (some 1) ∧
    bEx.get 1 = some (some 2) ∧
    (GapBuffer.delete bEx 1).toOption.map Prod.fst ≠ bEx.get 1 := by
  decide
